import Mathlib

/-!
Verification of the rocFFT plan-tree compiler (real-transform decomposition,
kernel checks, grid-parameter validation and contiguous-dimension collapsing)
against its natural-language specification.

The definitions below are a shallow embedding of the C++ sources:
  * `tree_node_real.cpp` (set_complex_length, SBCC_dim_available,
    RealTransCmplxNode / RealTransEvenNode / Real2DEvenNode builders)
  * `tree_node.cpp` (LeafNode::KernelCheck, LeafNode::SanityCheck,
    LeafNode::SetupGridParamAndFuncPtr, TreeNode::CollapseContiguousDims)

C++ `size_t` values are modelled as `Nat` (none of the verified code relies on
wrap-around), `std::vector<size_t>` as `List Nat`, thrown exceptions as
`Except String`.  External collaborators (the kernel catalog a.k.a.
function_pool, and device properties) are passed in explicitly as data.
-/

namespace RocFFT

/-- Floating-point precision of a transform (rocfft_precision). -/
inductive Precision where
  | single
  | double
  deriving DecidableEq, Repr

/-- The computation schemes appearing in the verified code paths
(subset of the C++ ComputeScheme enum). -/
inductive ComputeScheme where
  | CS_NONE
  | CS_REAL_TRANSFORM_USING_CMPLX
  | CS_REAL_TRANSFORM_EVEN
  | CS_REAL_2D_EVEN
  | CS_KERNEL_APPLY_CALLBACK
  | CS_KERNEL_R_TO_CMPLX
  | CS_KERNEL_CMPLX_TO_R
  | CS_KERNEL_COPY_R_TO_CMPLX
  | CS_KERNEL_COPY_HERM_TO_CMPLX
  | CS_KERNEL_COPY_CMPLX_TO_HERM
  | CS_KERNEL_COPY_CMPLX_TO_R
  | CS_KERNEL_STOCKHAM
  | CS_KERNEL_STOCKHAM_BLOCK_CC
  | CS_KERNEL_TRANSPOSE
  | CS_EXPLICIT_SUBTREE
  deriving DecidableEq, Repr

/-- Embedded pre/post-processing tag on a node (EmbeddedType in the C++). -/
inductive EmbeddedType where
  | NONE
  | Real2C_POST
  | C2Real_PRE
  deriving DecidableEq, Repr

/-- Direct-to/from-register mode of a leaf kernel (DirectRegType). -/
inductive DirectRegType where
  | TRY_ENABLE_IF_SUPPORT
  | FORCE_OFF_OR_NOT_SUPPORT
  deriving DecidableEq, Repr

/-- Strategy tag recorded on 2D/3D real-even nodes (`solution` member). -/
inductive Real2DSolution where
  | INPLACE_SBCC
  | TR_PAIR
  deriving DecidableEq, Repr

/-- Replace the fastest (front) extent `L` of a real-unit length vector by
`L/2+1` complex units, exactly as the statement sequence
`outputLength = length; outputLength.front() /= 2; outputLength.front() += 1;`
does in `set_complex_length`. -/
def complexify (l : List Nat) : List Nat :=
  l.modifyHead (fun h => h / 2 + 1)

/-- The length/outputLength/direction fields of a TreeNode that
`set_complex_length` reads and writes. -/
structure CLState where
  length : List Nat
  outputLength : List Nat
  direction : Int
  deriving DecidableEq, Repr

/-- Which of the two node fields the `realLength` / `complexLength` pointers
returned by `set_complex_length` alias. -/
inductive CLField where
  | lengthField
  | outputLengthField
  deriving DecidableEq, Repr

/-- Shallow embedding of `set_complex_length` (tree_node_real.cpp):
computes the complex-unit length into `outputLength` and, unless the
transform is forward (`direction == -1`), swaps `length` and `outputLength`.
Returns the updated node state together with where the `realLength` and
`complexLength` out-pointers point.  The result triple is
(state, realLength field, complexLength field). -/
def set_complex_length (s : CLState) : CLState × CLField × CLField :=
  let s := { s with outputLength := complexify s.length }
  if s.direction = -1 then
    (s, CLField.lengthField, CLField.outputLengthField)
  else
    ({ s with length := s.outputLength, outputLength := s.length },
      CLField.outputLengthField, CLField.lengthField)

/-- Read the vector a `CLField` designates on a state. -/
def CLState.read (s : CLState) : CLField → List Nat
  | CLField.lengthField => s.length
  | CLField.outputLengthField => s.outputLength

/-- The kernel catalog (function_pool), restricted to the queries the
verified code performs: existence and transforms-per-block of a
purpose-built SBCC kernel and of a generic Stockham kernel for a given
1-D length and precision. -/
structure FunctionPool where
  hasSbcc : Nat → Precision → Bool
  sbccTransformsPerBlock : Nat → Precision → Nat
  hasNormal : Nat → Precision → Bool
  normalTransformsPerBlock : Nat → Precision → Nat

/-- Shallow embedding of `SBCC_dim_available` (tree_node_real.cpp):
check whether an SBCC kernel is usable along dimension `sbccDim` of
`length` at precision `prec`, consulting the catalog `pool`. -/
def SBCC_dim_available (pool : FunctionPool) (length : List Nat)
    (sbccDim : Nat) (prec : Precision) : Bool :=
  let len := length.getD sbccDim 0
  -- do we have a purpose-built sbcc kernel
  let have_sbcc := pool.hasSbcc len prec
  let numTransOpt : Option Nat :=
    if have_sbcc then some (pool.sbccTransformsPerBlock len prec)
    else if pool.hasNormal len prec then some (pool.normalTransformsPerBlock len prec)
    else none  -- early `return false`: no kernel exists at all
  match numTransOpt with
  | none => false
  | some numTrans =>
    if length.getD 0 0 < numTrans ∧ have_sbcc = false then false
    else
      -- for regular stockham kernels, ensure we are doing enough rows to coalesce
      let minRows : Nat := if prec = Precision.single then 8 else 4
      if have_sbcc = false ∧ numTrans < minRows then false
      else true

/-- `std::swap(v[0], v[1])` on a vector with at least two entries. -/
def swap01 (l : List Nat) : List Nat :=
  match l with
  | a :: b :: rest => b :: a :: rest
  | _ => l

/-- The metadata a decomposition rule writes onto each child node it creates:
scheme, dimension, length, outputLength and the embedded-processing tag.
Fields the builders never set keep their defaults (empty / NONE), mirroring a
freshly factory-created TreeNode. -/
structure PlanChild where
  scheme : ComputeScheme
  dimension : Nat := 1
  length : List Nat := []
  outputLength : List Nat := []
  ebtype : EmbeddedType := EmbeddedType.NONE
  deriving DecidableEq, Repr

instance : Inhabited PlanChild := ⟨{ scheme := ComputeScheme.CS_NONE }⟩

/-- Shallow embedding of `RealTransCmplxNode::BuildTree_internal`
(CS_REAL_TRANSFORM_USING_CMPLX, tree_node_real.cpp): embed the data into a
full-length complex array, run a complex transform, extract the output.
Inputs are the node fields the function reads: its real-unit `length`, its
`dimension`, its `direction` and whether `inArrayType` is real.  The child
created by `NodeFactory::CreateExplicitNode` + `RecursiveBuildTree` is
represented by the marker scheme `CS_EXPLICIT_SUBTREE`.  Returns the ordered
child list. -/
def RealTransCmplxNode.buildTree (length : List Nat) (dimension : Nat)
    (direction : Int) (inArrayTypeIsReal : Bool) : List PlanChild :=
  let r2c := inArrayTypeIsReal
  let res := set_complex_length ⟨length, [], direction⟩
  let node := res.1
  let realLength := node.read res.2.1
  let complexLength := node.read res.2.2
  let copyHeadPlan : PlanChild :=
    { scheme := if r2c then ComputeScheme.CS_KERNEL_COPY_R_TO_CMPLX
                else ComputeScheme.CS_KERNEL_COPY_HERM_TO_CMPLX
      dimension := dimension
      length := node.length
      outputLength := if ¬r2c then realLength else [] }
  let fftPlan : PlanChild :=
    { scheme := ComputeScheme.CS_EXPLICIT_SUBTREE
      dimension := dimension
      length := realLength }
  let copyTailPlan : PlanChild :=
    { scheme := if r2c then ComputeScheme.CS_KERNEL_COPY_CMPLX_TO_HERM
                else ComputeScheme.CS_KERNEL_COPY_CMPLX_TO_R
      dimension := dimension
      length := realLength
      outputLength := if r2c then complexLength else [] }
  [copyHeadPlan, fftPlan, copyTailPlan]

/-- Result of `RealTransEvenNode::BuildTree_internal`: the ordered child list
together with whether the `default:` branch wrote its
"invalid direction: plan creation failed!" message to stderr.  The C++
function has no other effect in that branch — it returns normally. -/
structure EvenBuildResult where
  children : List PlanChild
  invalidDirectionLogged : Bool
  deriving DecidableEq, Repr

/-- Shallow embedding of `RealTransEvenNode::BuildTree_internal`
(CS_REAL_TRANSFORM_EVEN, tree_node_real.cpp).  Inputs: the node's real-unit
`length`, `dimension`, `direction`, its `try_fuse_pre_post_processing` flag
as set by the caller, and whether the recursively built complex sub-plan
(`cfftPlan`, scheme decided outside this function by
`NodeFactory::CreateExplicitNode`) ends up a leaf node (`cfftPlan->isLeafNode()`).
The sub-plan is represented by the marker scheme `CS_EXPLICIT_SUBTREE`. -/
def RealTransEvenNode.buildTree (length : List Nat) (dimension : Nat)
    (direction : Int) (tryFusePrePostProcessing : Bool)
    (cfftIsLeafNode : Bool) : EvenBuildResult :=
  let res := set_complex_length ⟨length, [], direction⟩
  let node := res.1
  let realLength := node.read res.2.1
  let complexLength := node.read res.2.2
  let cfftPlan : PlanChild :=
    { scheme := ComputeScheme.CS_EXPLICIT_SUBTREE
      dimension := dimension
      length := realLength.modifyHead (fun h => h / 2) }
  -- fuse pre/post-processing into fft if it's single-kernel
  let tryFuse := tryFusePrePostProcessing && cfftIsLeafNode
  if direction = -1 then
    -- real-to-complex transform: in-place complex transform then post-process
    let applyCallback : PlanChild :=
      { scheme := ComputeScheme.CS_KERNEL_APPLY_CALLBACK
        dimension := dimension
        length := realLength }
    let cfftPlan :=
      if tryFuse then
        { cfftPlan with
            ebtype := EmbeddedType.Real2C_POST
            outputLength := cfftPlan.length.modifyHead (fun h => h + 1) }
      else cfftPlan
    if tryFuse then
      ⟨[applyCallback, cfftPlan], false⟩
    else
      -- add separate post-processing since we couldn't fuse
      let postPlan : PlanChild :=
        { scheme := ComputeScheme.CS_KERNEL_R_TO_CMPLX
          dimension := 1
          length := realLength.modifyHead (fun h => h / 2)
          outputLength := complexLength }
      ⟨[applyCallback, cfftPlan, postPlan], false⟩
  else if direction = 1 then
    -- complex-to-real transform: pre-process then in-place complex transform
    let applyCallback : PlanChild :=
      { scheme := ComputeScheme.CS_KERNEL_APPLY_CALLBACK
        dimension := dimension
        length := node.outputLength }
    if ¬tryFuse then
      let prePlan : PlanChild :=
        { scheme := ComputeScheme.CS_KERNEL_CMPLX_TO_R
          dimension := 1
          length := complexLength
          outputLength := node.outputLength.modifyHead (fun h => h / 2) }
      ⟨[prePlan, cfftPlan, applyCallback], false⟩
    else
      let cfftPlan := { cfftPlan with ebtype := EmbeddedType.C2Real_PRE }
      ⟨[cfftPlan, applyCallback], false⟩
  else
    -- default: log "invalid direction: plan creation failed!" and return
    ⟨[], true⟩

/-- Shallow embedding of the strategy selection in
`Real2DEvenNode::BuildTree_internal`: use in-place SBCC when an SBCC kernel
is available along dimension 1, else the transpose-pair fallback. -/
def Real2DEvenNode.solution (pool : FunctionPool) (length : List Nat)
    (prec : Precision) : Real2DSolution :=
  if SBCC_dim_available pool length 1 prec then Real2DSolution.INPLACE_SBCC
  else Real2DSolution.TR_PAIR

/-- Shallow embedding of `Real2DEvenNode::BuildTree_internal_SBCC` for the
forward case (`inArrayType == rocfft_array_type_real`): a
CS_REAL_TRANSFORM_EVEN child over the node's length (whose
`try_fuse_pre_post_processing` flag is set to `length[0] <= 2048`), followed
by the column kernel along dimension 1 — a block-CC kernel when the catalog
has one, else a generic Stockham kernel.  The row child's `outputLength` is
what its own `set_complex_length` computes during `RecursiveBuildTree`. -/
def Real2DEvenNode.buildTreeSBCCForward (pool : FunctionPool)
    (length : List Nat) (prec : Precision) : List PlanChild :=
  let haveSBCC := pool.hasSbcc (length.getD 1 0) prec
  let sbccScheme := if haveSBCC then ComputeScheme.CS_KERNEL_STOCKHAM_BLOCK_CC
                    else ComputeScheme.CS_KERNEL_STOCKHAM
  let rcplan : PlanChild :=
    { scheme := ComputeScheme.CS_REAL_TRANSFORM_EVEN
      dimension := 1
      length := length
      outputLength := complexify length }
  let sbccY : PlanChild :=
    { scheme := sbccScheme
      length := swap01 (complexify length)
      outputLength := complexify length }
  [rcplan, sbccY]

/-- The `try_fuse_pre_post_processing` value the 2-D/3-D even builders store
on the CS_REAL_TRANSFORM_EVEN child they create ("for length > 2048, don't
try pre/post because LDS usage is too high"). -/
def tryFuseFlagFromLength (length : List Nat) : Bool :=
  length.getD 0 0 ≤ 2048

/-- A kernel key (FMKey): the two leading lengths, the precision, the scheme
and the embedded-processing type of the kernel configuration.  Fields the
verified logic never consults (sbrc transpose type, the remaining
kernel-config entries) are omitted. -/
structure FMKey where
  len0 : Nat
  len1 : Nat
  precision : Precision
  scheme : ComputeScheme
  ebType : EmbeddedType
  deriving DecidableEq, Repr

/-- `FMKey::EmptyFMKey()`: the default-constructed placeholder key. -/
def FMKey.empty : FMKey :=
  ⟨0, 0, Precision.single, ComputeScheme.CS_NONE, EmbeddedType.NONE⟩

/-- The node fields `LeafNode::KernelCheck` reads. -/
structure LeafNodeData where
  externalKernel : Bool
  length : List Nat
  dimension : Nat
  precision : Precision
  scheme : ComputeScheme
  ebtype : EmbeddedType
  deriving DecidableEq, Repr

/-- The kernel catalog as consulted by `KernelCheck`: membership of full
kernel keys. -/
structure KernelPool where
  hasFunction : FMKey → Bool

/-- `function_pool::add_new_kernel`: afterwards the pool also contains the
added key. -/
def KernelPool.addKernel (pool : KernelPool) (k : FMKey) : KernelPool :=
  ⟨fun q => q = k || pool.hasFunction q⟩

/-- Modelled from the spec: `TreeNode::GetKernelKey` is not under src/ (only
its callers are).  Per §6 the catalog is keyed by the node's own
length/precision/scheme (plus the embedded-processing type checked in
`KernelCheck`), so the default (auto-generated) key is built from exactly
those node properties; the second length participates only for 2-D kernels. -/
def defaultKernelKey (node : LeafNodeData) : FMKey :=
  ⟨node.length.getD 0 0,
   if node.dimension = 2 then node.length.getD 1 0 else 0,
   node.precision, node.scheme, node.ebtype⟩

/-- The property comparison in `LeafNode::KernelCheck`: the externally
assigned key disagrees with the node's fastest length, second length (2-D
only), precision, scheme, or embedded-processing type. -/
def keyMismatch (node : LeafNodeData) (assignedKey : FMKey) : Bool :=
  decide (node.length.getD 0 0 ≠ assignedKey.len0
    ∨ (node.dimension = 2 ∧ node.length.getD 1 0 ≠ assignedKey.len1)
    ∨ node.precision ≠ assignedKey.precision
    ∨ node.scheme ≠ assignedKey.scheme
    ∨ node.ebtype ≠ assignedKey.ebType)

/-- The tail of `LeafNode::KernelCheck`: look up the final key — the
specified key when one was validated and registered, else the node's own
default key — and report whether the catalog has it. -/
def finalKernelLookup (pool : KernelPool) (node : LeafNodeData)
    (specifiedKey : Option FMKey) : Bool :=
  let key := match specifiedKey with
    | some k => k
    | none => defaultKernelKey node
  pool.hasFunction key

/-- Shallow embedding of `LeafNode::KernelCheck` (tree_node.cpp).  `keys` is
the externally-supplied kernel key list (`kernel_keys`); only its front
element is consulted by one call.  Returns the boolean validation result:
`false` is the recoverable failure signal, no exception is thrown here. -/
def LeafNode.KernelCheck (pool : KernelPool) (node : LeafNodeData)
    (keys : List FMKey) : Bool :=
  if node.externalKernel = false then
    match keys with
    | [] => true
    | k :: _ => k = FMKey.empty  -- built-in kernel must be stored as EmptyFMKey
  else
    match keys with
    | [] => finalKernelLookup pool node none
    | assignedKey :: _ =>
      if assignedKey = FMKey.empty then
        -- kernel is not tuned, use default kernel
        finalKernelLookup pool node none
      else if keyMismatch node assignedKey then
        -- solution kernel keys are invalid: key properties != node properties
        false
      else
        finalKernelLookup (pool.addKernel assignedKey) node (some assignedKey)

/-- Shallow embedding of `LeafNode::SanityCheck` (tree_node.cpp): any
`KernelCheck` failure becomes a thrown `std::runtime_error`. -/
def LeafNode.SanityCheck (pool : KernelPool) (node : LeafNodeData)
    (keys : List FMKey) : Except String Unit :=
  if LeafNode.KernelCheck pool node keys = false then
    Except.error "Kernel not found or mismatches node (solution map issue)"
  else
    Except.ok ()

/-- Device properties consulted by `SetupGridParamAndFuncPtr`. -/
structure DeviceProp where
  sharedMemPerBlock : Nat
  gcnArchName : String
  deriving DecidableEq, Repr

/-- Size in bytes of one complex element (two scalars) at the given
precision, as `complex_type_size` returns. -/
def complex_type_size (p : Precision) : Nat :=
  match p with
  | Precision.single => 8
  | Precision.double => 16

/-- The node fields `LeafNode::SetupGridParamAndFuncPtr` reads when
computing `gp.lds_bytes`; `lds` is the element count set by the derived
class in `SetupGPAndFnPtr_internal`. -/
structure GridSetupData where
  lds : Nat
  scheme : ComputeScheme
  ebtype : EmbeddedType
  dir2regMode : DirectRegType
  precision : Precision
  length0 : Nat
  deriving DecidableEq, Repr

/-- The `gp.lds_bytes` value computed by `LeafNode::SetupGridParamAndFuncPtr`
before the device-limit comparison: element count times complex element
size, halved for half-LDS Stockham/SBCC kernels (with the gfx90a
length-343/49 special case keeping the full allocation).  `hasFunc` and
`halfLds` are the catalog's answers for this node's kernel key. -/
def ldsBytesComputed (hasFunc halfLds : Bool) (dev : DeviceProp)
    (n : GridSetupData) : Nat :=
  let bytes := n.lds * complex_type_size n.precision
  let bytes :=
    if n.scheme = ComputeScheme.CS_KERNEL_STOCKHAM
        ∧ n.ebtype = EmbeddedType.NONE ∧ hasFunc = true then
      let doubleHalfLdsAlloc : Bool :=
        dev.gcnArchName = "gfx90a" ∧ (n.length0 = 343 ∨ n.length0 = 49)
      if halfLds = true ∧ doubleHalfLdsAlloc = false then bytes / 2 else bytes
    else bytes
  if n.scheme = ComputeScheme.CS_KERNEL_STOCKHAM_BLOCK_CC
      ∧ n.dir2regMode = DirectRegType.TRY_ENABLE_IF_SUPPORT
      ∧ n.ebtype = EmbeddedType.NONE ∧ hasFunc = true ∧ halfLds = true then
    bytes / 2
  else bytes

/-- The exception text thrown when the LDS request exceeds the device
limit. -/
def ldsErrorMessage (requested available : Nat) : String :=
  toString requested ++ " bytes of LDS requested, but device only provides "
    ++ toString available

/-- Shallow embedding of the LDS validation at the end of
`LeafNode::SetupGridParamAndFuncPtr` (tree_node.cpp): compute
`gp.lds_bytes` and throw if it exceeds `deviceProp.sharedMemPerBlock`,
otherwise hand the untouched value on. -/
def SetupGridParamLds (hasFunc halfLds : Bool) (dev : DeviceProp)
    (n : GridSetupData) : Except String Nat :=
  let bytes := ldsBytesComputed hasFunc halfLds dev n
  if bytes > dev.sharedMemPerBlock then
    Except.error (ldsErrorMessage bytes dev.sharedMemPerBlock)
  else
    Except.ok bytes

/-- The layout fields of a TreeNode that `CollapseContiguousDims` reads and
writes. -/
structure NodeLayout where
  length : List Nat
  outputLength : List Nat
  inStride : List Nat
  outStride : List Nat
  iDist : Nat
  oDist : Nat
  batch : Nat
  deriving DecidableEq, Repr

/-- Modelled from the spec: `TreeNode::GetOutputLength` is not under src/.
Per §3 a node's `outputLength` "may differ from `length` when the operation
changes total element count"; when it was never set the node's output shape
is its `length`. -/
def NodeLayout.GetOutputLength (s : NodeLayout) : List Nat :=
  if s.outputLength = [] then s.length else s.outputLength

/-- The `collectCollapse` lambda in `CollapseContiguousDims`: walk the
collapsible dims from the batch dimension backwards (the argument is the
already-reversed dim list), keeping dims while the running stride stays
contiguous (`curStride` divisible by `stride[i]` with quotient `length[i]`),
and stop at the first failure.  Returns the dims to collapse, highest
first. -/
def collectCollapse (length stride : List Nat) :
    Nat → List Nat → List Nat
  | _, [] => []
  | curStride, i :: rest =>
    if curStride % stride.getD i 0 = 0
        ∧ curStride / stride.getD i 0 = length.getD i 0 then
      i :: collectCollapse length stride (stride.getD i 0) rest
    else []

/-- Erase the given indices from a vector; `dims` is in descending order so
each erasure leaves the remaining (smaller) indices valid, exactly as the
`doCollapse` lambda relies on. -/
def eraseDims (l : List Nat) (dims : List Nat) : List Nat :=
  dims.foldl (fun acc i => acc.eraseIdx i) l

/-- The running `dist /= lengthToCollapse[i]` divisions of `doCollapse`.
Since `dims` is descending, the entry read at each step equals the entry of
the original vector, so the original vector is consulted throughout. -/
def divDims (dist : Nat) (length : List Nat) (dims : List Nat) : Nat :=
  dims.foldl (fun d i => d / length.getD i 0) dist

/-- Shallow embedding of `TreeNode::CollapseContiguousDims` (tree_node.cpp)
for a single node: the scheme-specific `CollapsibleDims()` answer is passed
in (the recursion over children applies this same function to each child and
does not touch this node's fields). -/
def CollapseContiguousDims (collapsibleDims : List Nat)
    (s : NodeLayout) : NodeLayout :=
  if collapsibleDims = [] then s
  else
    let inputDimsToCollapse :=
      collectCollapse s.length s.inStride s.iDist collapsibleDims.reverse
    let newInputBatch :=
      s.batch * (inputDimsToCollapse.map (fun i => s.length.getD i 0)).prod
    let outputLengthTemp := s.GetOutputLength
    let outputDimsToCollapse :=
      collectCollapse outputLengthTemp s.outStride s.oDist collapsibleDims.reverse
    let newOutputBatch :=
      s.batch * (outputDimsToCollapse.map (fun i => outputLengthTemp.getD i 0)).prod
    if inputDimsToCollapse ≠ outputDimsToCollapse
        ∨ newInputBatch ≠ newOutputBatch then s
    else
      { length := eraseDims s.length inputDimsToCollapse
        inStride := eraseDims s.inStride inputDimsToCollapse
        iDist := divDims s.iDist s.length inputDimsToCollapse
        outStride := eraseDims s.outStride outputDimsToCollapse
        oDist := divDims s.oDist outputLengthTemp outputDimsToCollapse
        batch := newInputBatch
        outputLength :=
          if s.outputLength = [] then s.outputLength
          else eraseDims outputLengthTemp outputDimsToCollapse }

/-- The contiguity chain the claim describes: starting from the node's
distance, each collapsed dim `i` satisfies `dist = stride[i] * length[i]`
with the running distance becoming `stride[i]` afterwards. -/
def contiguityChain (length stride : List Nat) : Nat → List Nat → Bool
  | _, [] => true
  | dist, i :: rest =>
    decide (dist = stride.getD i 0 * length.getD i 0)
      && contiguityChain length stride (stride.getD i 0) rest

/-! ## Theorems -/

/-- C2: for a real↔complex node whose fastest real dimension has extent `L`,
`set_complex_length` gives the complex side exactly `⌊L/2⌋+1` entries along
the fastest dimension: it sets `outputLength` to `length` with the fastest
extent replaced by `L/2+1`, and for an inverse transform (`direction == 1`)
it then swaps `length` and `outputLength`, so the node's `length` holds the
complex (Hermitian-packed) extents and `outputLength` the real extents. -/
theorem set_complex_length_spec (s : CLState) (L : Nat) (rest : List Nat)
    (h : s.length = L :: rest) :
    ((set_complex_length s).1.read (set_complex_length s).2.2).headI = L / 2 + 1
    ∧ (s.direction = -1 →
        (set_complex_length s).1.outputLength = (L / 2 + 1) :: rest
        ∧ (set_complex_length s).1.length = L :: rest)
    ∧ (s.direction = 1 →
        (set_complex_length s).1.length = (L / 2 + 1) :: rest
        ∧ (set_complex_length s).1.outputLength = L :: rest) := by
  unfold set_complex_length
  by_cases hd : s.direction = -1
  · simp [hd, CLState.read, complexify, h]
  · have h1 : s.direction = 1 → ¬(s.direction = -1) := fun _ => hd
    simp [hd, CLState.read, complexify, h]

/-- Witness for C2 at a concrete forward node of real length 1024. -/
theorem set_complex_length_spec_witness :
    (⟨[1024], [], -1⟩ : CLState).length = 1024 :: []
    ∧ (((set_complex_length ⟨[1024], [], -1⟩).1.read
          (set_complex_length ⟨[1024], [], -1⟩).2.2).headI = 1024 / 2 + 1
      ∧ ((-1 : Int) = -1 →
          (set_complex_length ⟨[1024], [], -1⟩).1.outputLength = (1024 / 2 + 1) :: []
          ∧ (set_complex_length ⟨[1024], [], -1⟩).1.length = 1024 :: [])
      ∧ ((-1 : Int) = 1 →
          (set_complex_length ⟨[1024], [], -1⟩).1.length = (1024 / 2 + 1) :: []
          ∧ (set_complex_length ⟨[1024], [], -1⟩).1.outputLength = 1024 :: [])) :=
  ⟨rfl, set_complex_length_spec ⟨[1024], [], -1⟩ 1024 [] rfl⟩

/-- C5: the column-block availability check `SBCC_dim_available` returns true
whenever a purpose-built block-CC kernel exists for the dimension's length,
regardless of its transforms-per-block; with no kernel at all it returns
false; and with only a generic kernel whose transforms-per-block is below
the minimum-rows heuristic (8 single, 4 double) it returns false. -/
theorem SBCC_dim_available_spec (pool : FunctionPool) (length : List Nat)
    (sbccDim : Nat) (prec : Precision) :
    (pool.hasSbcc (length.getD sbccDim 0) prec = true →
      SBCC_dim_available pool length sbccDim prec = true)
    ∧ (pool.hasSbcc (length.getD sbccDim 0) prec = false →
        pool.hasNormal (length.getD sbccDim 0) prec = false →
        SBCC_dim_available pool length sbccDim prec = false)
    ∧ (pool.hasSbcc (length.getD sbccDim 0) prec = false →
        pool.hasNormal (length.getD sbccDim 0) prec = true →
        pool.normalTransformsPerBlock (length.getD sbccDim 0) prec
          < (if prec = Precision.single then 8 else 4) →
        SBCC_dim_available pool length sbccDim prec = false) := by
  refine ⟨fun hs => ?_, fun hs hn => ?_, fun hs hn htpb => ?_⟩ <;>
    simp only [SBCC_dim_available]
  · rw [hs]
    simp
  · rw [hs, hn]
    simp
  · rw [hs, hn]
    simp only [List.getD_eq_getElem?_getD] at htpb
    simp [htpb]

/-- Witness for C5 at a concrete catalog: a purpose-built SBCC kernel for
length 64 (single precision) with only one transform per block is still
reported available. -/
theorem SBCC_dim_available_spec_witness :
    (FunctionPool.mk (fun l _ => decide (l = 64)) (fun _ _ => 1)
        (fun _ _ => false) (fun _ _ => 0)).hasSbcc
        (([64, 64] : List Nat).getD 1 0) Precision.single = true
    ∧ SBCC_dim_available
        (FunctionPool.mk (fun l _ => decide (l = 64)) (fun _ _ => 1)
          (fun _ _ => false) (fun _ _ => 0))
        [64, 64] 1 Precision.single = true :=
  ⟨by decide,
   (SBCC_dim_available_spec
      (FunctionPool.mk (fun l _ => decide (l = 64)) (fun _ _ => 1)
        (fun _ _ => false) (fun _ _ => 0))
      [64, 64] 1 Precision.single).1 (by decide)⟩

/-- C3: the embed-in-complex builder always produces exactly three children,
in order: a head-copy node (copy-real-to-complex for real input,
copy-Hermitian-to-complex otherwise), a full complex transform node over the
real-length shape, and a tail-copy node (copy-complex-to-Hermitian for real
input, copy-complex-to-real otherwise) — the three-child shape the
layout-assignment pass for this scheme requires. -/
theorem RealTransCmplxNode_buildTree_spec (length : List Nat)
    (dimension : Nat) (direction : Int) (r2c : Bool) :
    (RealTransCmplxNode.buildTree length dimension direction r2c).length = 3
    ∧ ((RealTransCmplxNode.buildTree length dimension direction r2c).getD 0
        default).scheme
      = (if r2c then ComputeScheme.CS_KERNEL_COPY_R_TO_CMPLX
         else ComputeScheme.CS_KERNEL_COPY_HERM_TO_CMPLX)
    ∧ ((RealTransCmplxNode.buildTree length dimension direction r2c).getD 1
        default).scheme = ComputeScheme.CS_EXPLICIT_SUBTREE
    ∧ ((RealTransCmplxNode.buildTree length dimension direction r2c).getD 1
        default).length = length
    ∧ ((RealTransCmplxNode.buildTree length dimension direction r2c).getD 2
        default).scheme
      = (if r2c then ComputeScheme.CS_KERNEL_COPY_CMPLX_TO_HERM
         else ComputeScheme.CS_KERNEL_COPY_CMPLX_TO_R) := by
  unfold RealTransCmplxNode.buildTree set_complex_length
  by_cases hd : direction = -1 <;> simp [hd, CLState.read]

/-- C4: the 2-D even-length real builder selects the in-place column-block
strategy exactly when `SBCC_dim_available` reports a usable kernel along
dimension 1 (and the transpose-pair fallback otherwise), and the forward
column-block tree has exactly 2 children: the fastest-dimension even-length
real transform first, then the column kernel along dimension 1, a block-CC
kernel when the catalog has one and a generic Stockham kernel otherwise. -/
theorem Real2DEvenNode_spec (pool : FunctionPool) (length : List Nat)
    (prec : Precision) :
    (Real2DEvenNode.solution pool length prec = Real2DSolution.INPLACE_SBCC
      ↔ SBCC_dim_available pool length 1 prec = true)
    ∧ (Real2DEvenNode.solution pool length prec = Real2DSolution.TR_PAIR
      ↔ SBCC_dim_available pool length 1 prec = false)
    ∧ (Real2DEvenNode.buildTreeSBCCForward pool length prec).length = 2
    ∧ ((Real2DEvenNode.buildTreeSBCCForward pool length prec).getD 0
        default).scheme = ComputeScheme.CS_REAL_TRANSFORM_EVEN
    ∧ ((Real2DEvenNode.buildTreeSBCCForward pool length prec).getD 0
        default).length = length
    ∧ ((Real2DEvenNode.buildTreeSBCCForward pool length prec).getD 1
        default).scheme
      = (if pool.hasSbcc (length.getD 1 0) prec then
          ComputeScheme.CS_KERNEL_STOCKHAM_BLOCK_CC
         else ComputeScheme.CS_KERNEL_STOCKHAM) := by
  unfold Real2DEvenNode.solution Real2DEvenNode.buildTreeSBCCForward
  refine ⟨?_, ?_, ?_, ?_, ?_, ?_⟩
  · by_cases h : SBCC_dim_available pool length 1 prec = true <;> simp [h]
  · by_cases h : SBCC_dim_available pool length 1 prec = true <;> simp [h]
  · simp
  · simp
  · simp
  · by_cases h : pool.hasSbcc (length.getD 1 0) prec = true <;> simp [h]

/-- C1: with the `try_fuse_pre_post_processing` flag computed at the call
sites (`length[0] <= 2048`), the even-length real builder fuses the pre/post
pass exactly when the fastest length is at most 2048 and the complex
sub-plan is a single (leaf) kernel; on fusion the node has exactly 2
children — the apply-callback node and the fused complex kernel carrying an
embedded-processing tag — and otherwise exactly 3, with the pre/post
processing emitted as a separate sibling: CS_KERNEL_R_TO_CMPLX last for
forward, CS_KERNEL_CMPLX_TO_R first for inverse, and no embedded tag on any
child. -/
theorem RealTransEvenNode_fusion_spec (length : List Nat) (dimension : Nat)
    (direction : Int) (cfftIsLeafNode : Bool)
    (hdir : direction = -1 ∨ direction = 1) :
    ((RealTransEvenNode.buildTree length dimension direction
        (tryFuseFlagFromLength length) cfftIsLeafNode).children.length = 2
      ↔ (length.getD 0 0 ≤ 2048 ∧ cfftIsLeafNode = true))
    ∧ ((length.getD 0 0 ≤ 2048 ∧ cfftIsLeafNode = true) →
        (direction = -1 →
          ((RealTransEvenNode.buildTree length dimension direction
              (tryFuseFlagFromLength length) cfftIsLeafNode).children.getD 0
            default).scheme = ComputeScheme.CS_KERNEL_APPLY_CALLBACK
          ∧ ((RealTransEvenNode.buildTree length dimension direction
              (tryFuseFlagFromLength length) cfftIsLeafNode).children.getD 1
            default).scheme = ComputeScheme.CS_EXPLICIT_SUBTREE
          ∧ ((RealTransEvenNode.buildTree length dimension direction
              (tryFuseFlagFromLength length) cfftIsLeafNode).children.getD 1
            default).ebtype = EmbeddedType.Real2C_POST)
        ∧ (direction = 1 →
          ((RealTransEvenNode.buildTree length dimension direction
              (tryFuseFlagFromLength length) cfftIsLeafNode).children.getD 0
            default).scheme = ComputeScheme.CS_EXPLICIT_SUBTREE
          ∧ ((RealTransEvenNode.buildTree length dimension direction
              (tryFuseFlagFromLength length) cfftIsLeafNode).children.getD 0
            default).ebtype = EmbeddedType.C2Real_PRE
          ∧ ((RealTransEvenNode.buildTree length dimension direction
              (tryFuseFlagFromLength length) cfftIsLeafNode).children.getD 1
            default).scheme = ComputeScheme.CS_KERNEL_APPLY_CALLBACK))
    ∧ (¬(length.getD 0 0 ≤ 2048 ∧ cfftIsLeafNode = true) →
        (RealTransEvenNode.buildTree length dimension direction
          (tryFuseFlagFromLength length) cfftIsLeafNode).children.length = 3
        ∧ (direction = -1 →
          ((RealTransEvenNode.buildTree length dimension direction
              (tryFuseFlagFromLength length) cfftIsLeafNode).children.getD 2
            default).scheme = ComputeScheme.CS_KERNEL_R_TO_CMPLX)
        ∧ (direction = 1 →
          ((RealTransEvenNode.buildTree length dimension direction
              (tryFuseFlagFromLength length) cfftIsLeafNode).children.getD 0
            default).scheme = ComputeScheme.CS_KERNEL_CMPLX_TO_R)
        ∧ ∀ c ∈ (RealTransEvenNode.buildTree length dimension direction
              (tryFuseFlagFromLength length) cfftIsLeafNode).children,
            c.ebtype = EmbeddedType.NONE) := by
  have hne : (1 : Int) ≠ -1 := by decide
  rcases hdir with hd | hd <;> subst hd <;>
    by_cases hcut : length.getD 0 0 ≤ 2048 <;>
    simp only [List.getD_eq_getElem?_getD] at hcut <;>
    cases cfftIsLeafNode <;>
    simp [RealTransEvenNode.buildTree, set_complex_length, CLState.read,
      tryFuseFlagFromLength, hcut, hne]

/-- Witness for C1: forward direction, real length 1024 with a leaf complex
sub-plan. -/
theorem RealTransEvenNode_fusion_spec_witness :
    ((-1 : Int) = -1 ∨ (-1 : Int) = 1)
    ∧ (((RealTransEvenNode.buildTree [1024] 1 (-1)
          (tryFuseFlagFromLength [1024]) true).children.length = 2
        ↔ (([1024] : List Nat).getD 0 0 ≤ 2048 ∧ true = true))
      ∧ ((([1024] : List Nat).getD 0 0 ≤ 2048 ∧ true = true) →
          ((-1 : Int) = -1 →
            ((RealTransEvenNode.buildTree [1024] 1 (-1)
                (tryFuseFlagFromLength [1024]) true).children.getD 0
              default).scheme = ComputeScheme.CS_KERNEL_APPLY_CALLBACK
            ∧ ((RealTransEvenNode.buildTree [1024] 1 (-1)
                (tryFuseFlagFromLength [1024]) true).children.getD 1
              default).scheme = ComputeScheme.CS_EXPLICIT_SUBTREE
            ∧ ((RealTransEvenNode.buildTree [1024] 1 (-1)
                (tryFuseFlagFromLength [1024]) true).children.getD 1
              default).ebtype = EmbeddedType.Real2C_POST)
          ∧ ((-1 : Int) = 1 →
            ((RealTransEvenNode.buildTree [1024] 1 (-1)
                (tryFuseFlagFromLength [1024]) true).children.getD 0
              default).scheme = ComputeScheme.CS_EXPLICIT_SUBTREE
            ∧ ((RealTransEvenNode.buildTree [1024] 1 (-1)
                (tryFuseFlagFromLength [1024]) true).children.getD 0
              default).ebtype = EmbeddedType.C2Real_PRE
            ∧ ((RealTransEvenNode.buildTree [1024] 1 (-1)
                (tryFuseFlagFromLength [1024]) true).children.getD 1
              default).scheme = ComputeScheme.CS_KERNEL_APPLY_CALLBACK))
      ∧ (¬(([1024] : List Nat).getD 0 0 ≤ 2048 ∧ true = true) →
          (RealTransEvenNode.buildTree [1024] 1 (-1)
            (tryFuseFlagFromLength [1024]) true).children.length = 3
          ∧ ((-1 : Int) = -1 →
            ((RealTransEvenNode.buildTree [1024] 1 (-1)
                (tryFuseFlagFromLength [1024]) true).children.getD 2
              default).scheme = ComputeScheme.CS_KERNEL_R_TO_CMPLX)
          ∧ ((-1 : Int) = 1 →
            ((RealTransEvenNode.buildTree [1024] 1 (-1)
                (tryFuseFlagFromLength [1024]) true).children.getD 0
              default).scheme = ComputeScheme.CS_KERNEL_CMPLX_TO_R)
          ∧ ∀ c ∈ (RealTransEvenNode.buildTree [1024] 1 (-1)
                (tryFuseFlagFromLength [1024]) true).children,
              c.ebtype = EmbeddedType.NONE)) :=
  ⟨Or.inl rfl, RealTransEvenNode_fusion_spec [1024] 1 (-1) true (Or.inl rfl)⟩

/-- C6: the apply-callback node sits at the user-visible real buffer
boundary: first child with the real-side extents for a forward
(real-to-complex) even transform, last child with the real-side extents for
an inverse (complex-to-real) even transform. -/
theorem RealTransEvenNode_applyCallback_spec (length : List Nat)
    (dimension : Nat) (tryFuse cfftIsLeafNode : Bool) :
    ((RealTransEvenNode.buildTree length dimension (-1) tryFuse
        cfftIsLeafNode).children.head?.map PlanChild.scheme
      = some ComputeScheme.CS_KERNEL_APPLY_CALLBACK)
    ∧ ((RealTransEvenNode.buildTree length dimension (-1) tryFuse
        cfftIsLeafNode).children.head?.map PlanChild.length = some length)
    ∧ ((RealTransEvenNode.buildTree length dimension 1 tryFuse
        cfftIsLeafNode).children.getLast?.map PlanChild.scheme
      = some ComputeScheme.CS_KERNEL_APPLY_CALLBACK)
    ∧ ((RealTransEvenNode.buildTree length dimension 1 tryFuse
        cfftIsLeafNode).children.getLast?.map PlanChild.length
      = some length) := by
  have hne : (1 : Int) ≠ -1 := by decide
  cases tryFuse <;> cases cfftIsLeafNode <;>
    simp [RealTransEvenNode.buildTree, set_complex_length, CLState.read, hne]

/-- C9: the even-length real builder at an unrecognized direction (here 0):
it logs "invalid direction: plan creation failed!" but returns normally,
leaving the node with zero children instead of aborting construction. -/
theorem RealTransEvenNode_invalid_direction_eval :
    RealTransEvenNode.buildTree [8] 1 0 true true
      = ⟨[], true⟩ := by decide

/-- C7: the grid-parameter setup never silently truncates the shared-memory
request: when the computed LDS byte requirement exceeds the device's
advertised shared-memory-per-block it throws an exception naming both the
requested and the available byte counts, any successful return hands back
the full computed requirement (which then fits the limit), and on a device
advertising 0 bytes any nonzero requirement fails. -/
theorem SetupGridParamLds_spec (hasFunc halfLds : Bool) (dev : DeviceProp)
    (n : GridSetupData) :
    (ldsBytesComputed hasFunc halfLds dev n > dev.sharedMemPerBlock →
      SetupGridParamLds hasFunc halfLds dev n
        = Except.error (ldsErrorMessage (ldsBytesComputed hasFunc halfLds dev n)
            dev.sharedMemPerBlock))
    ∧ (∀ b, SetupGridParamLds hasFunc halfLds dev n = Except.ok b →
        b = ldsBytesComputed hasFunc halfLds dev n ∧ b ≤ dev.sharedMemPerBlock)
    ∧ (dev.sharedMemPerBlock = 0 →
        ldsBytesComputed hasFunc halfLds dev n ≠ 0 →
        SetupGridParamLds hasFunc halfLds dev n
          = Except.error (ldsErrorMessage (ldsBytesComputed hasFunc halfLds dev n) 0)) := by
  refine ⟨fun hgt => ?_, fun b hok => ?_, fun hzero hnz => ?_⟩
  · unfold SetupGridParamLds
    simp [hgt]
  · unfold SetupGridParamLds at hok
    by_cases hgt : ldsBytesComputed hasFunc halfLds dev n > dev.sharedMemPerBlock
    · simp [hgt] at hok
    · simp [hgt] at hok
      omega
  · unfold SetupGridParamLds
    rw [hzero]
    simp [Nat.pos_of_ne_zero hnz]

/-- Witness for C7: a generic single-precision Stockham leaf needing
16 complex LDS elements (128 bytes) on a device advertising 0 bytes of
shared memory fails with the exception naming both counts. -/
theorem SetupGridParamLds_spec_witness :
    (⟨0, "gfx906"⟩ : DeviceProp).sharedMemPerBlock = 0
    ∧ ldsBytesComputed false false ⟨0, "gfx906"⟩
        ⟨16, ComputeScheme.CS_KERNEL_STOCKHAM, EmbeddedType.NONE,
          DirectRegType.FORCE_OFF_OR_NOT_SUPPORT, Precision.single, 64⟩ ≠ 0
    ∧ SetupGridParamLds false false ⟨0, "gfx906"⟩
        ⟨16, ComputeScheme.CS_KERNEL_STOCKHAM, EmbeddedType.NONE,
          DirectRegType.FORCE_OFF_OR_NOT_SUPPORT, Precision.single, 64⟩
      = Except.error (ldsErrorMessage
          (ldsBytesComputed false false ⟨0, "gfx906"⟩
            ⟨16, ComputeScheme.CS_KERNEL_STOCKHAM, EmbeddedType.NONE,
              DirectRegType.FORCE_OFF_OR_NOT_SUPPORT, Precision.single, 64⟩) 0) :=
  ⟨rfl, by decide,
   (SetupGridParamLds_spec false false ⟨0, "gfx906"⟩
      ⟨16, ComputeScheme.CS_KERNEL_STOCKHAM, EmbeddedType.NONE,
        DirectRegType.FORCE_OFF_OR_NOT_SUPPORT, Precision.single, 64⟩).2.2
     rfl (by decide)⟩

/-- A leaf node used to refute C8 as stated: an external-kernel Stockham
leaf of length 16, single precision. -/
def mismatchNode : LeafNodeData :=
  ⟨true, [16], 1, Precision.single, ComputeScheme.CS_KERNEL_STOCKHAM,
    EmbeddedType.NONE⟩

/-- A catalog containing exactly the default kernel for `mismatchNode`, so a
fallback kernel exists. -/
def mismatchPool : KernelPool :=
  ⟨fun k => decide (k = defaultKernelKey mismatchNode)⟩

/-- An externally-supplied kernel key whose length (32) disagrees with
`mismatchNode`'s length (16). -/
def mismatchKey : FMKey :=
  ⟨32, 0, Precision.single, ComputeScheme.CS_KERNEL_STOCKHAM,
    EmbeddedType.NONE⟩

/-- Counterexample to C8 as stated: on a property mismatch the caller does
NOT fall back to the default kernel — `SanityCheck` aborts the plan even
though the catalog has the node's default kernel. -/
theorem KernelCheck_mismatch_counterexample :
    mismatchPool.hasFunction (defaultKernelKey mismatchNode) = true
    ∧ LeafNode.KernelCheck mismatchPool mismatchNode [mismatchKey] = false
    ∧ LeafNode.SanityCheck mismatchPool mismatchNode [mismatchKey]
      = Except.error "Kernel not found or mismatches node (solution map issue)" := by
  refine ⟨by decide, by decide, ?_⟩
  rfl

/-- C8 (amended): a property mismatch between an externally-supplied kernel
key and the leaf node is detected explicitly and reported by `KernelCheck`
as a recoverable boolean failure (no exception there), but `SanityCheck`
then aborts the plan unconditionally; fallback to default kernel selection
happens only when the supplied key is the empty (untuned) key, and in that
case the failure is fatal exactly when the catalog lacks the node's default
kernel. -/
theorem KernelCheck_mismatch_spec (pool : KernelPool) (node : LeafNodeData)
    (assignedKey : FMKey) (rest : List FMKey)
    (hext : node.externalKernel = true) :
    (assignedKey ≠ FMKey.empty → keyMismatch node assignedKey = true →
      LeafNode.KernelCheck pool node (assignedKey :: rest) = false
      ∧ LeafNode.SanityCheck pool node (assignedKey :: rest)
        = Except.error "Kernel not found or mismatches node (solution map issue)")
    ∧ (assignedKey = FMKey.empty →
      LeafNode.KernelCheck pool node (assignedKey :: rest)
        = pool.hasFunction (defaultKernelKey node)
      ∧ (LeafNode.SanityCheck pool node (assignedKey :: rest) = Except.ok ()
        ↔ pool.hasFunction (defaultKernelKey node) = true)) := by
  constructor
  · intro hne hmis
    have hkc : LeafNode.KernelCheck pool node (assignedKey :: rest) = false := by
      unfold LeafNode.KernelCheck
      simp [hext, hne, hmis]
    refine ⟨hkc, ?_⟩
    unfold LeafNode.SanityCheck
    simp [hkc]
  · intro hempty
    have hkc : LeafNode.KernelCheck pool node (assignedKey :: rest)
        = pool.hasFunction (defaultKernelKey node) := by
      unfold LeafNode.KernelCheck finalKernelLookup
      simp [hext, hempty]
    refine ⟨hkc, ?_⟩
    unfold LeafNode.SanityCheck
    rw [hkc]
    by_cases hf : pool.hasFunction (defaultKernelKey node) = true
    · simp [hf]
    · simp only [Bool.not_eq_true] at hf
      simp [hf]

/-- Witness for C8's amended theorem at the concrete mismatch instance. -/
theorem KernelCheck_mismatch_spec_witness :
    mismatchNode.externalKernel = true
    ∧ ((mismatchKey ≠ FMKey.empty → keyMismatch mismatchNode mismatchKey = true →
        LeafNode.KernelCheck mismatchPool mismatchNode [mismatchKey] = false
        ∧ LeafNode.SanityCheck mismatchPool mismatchNode [mismatchKey]
          = Except.error "Kernel not found or mismatches node (solution map issue)")
      ∧ (mismatchKey = FMKey.empty →
        LeafNode.KernelCheck mismatchPool mismatchNode [mismatchKey]
          = mismatchPool.hasFunction (defaultKernelKey mismatchNode)
        ∧ (LeafNode.SanityCheck mismatchPool mismatchNode [mismatchKey]
            = Except.ok ()
          ↔ mismatchPool.hasFunction (defaultKernelKey mismatchNode) = true))) :=
  ⟨rfl, KernelCheck_mismatch_spec mismatchPool mismatchNode mismatchKey [] rfl⟩

/-- Multiplying the product of a list with one entry erased by that entry
restores the full product. -/
theorem prod_eraseIdx_mul (l : List Nat) :
    ∀ i, i < l.length → (l.eraseIdx i).prod * l.getD i 0 = l.prod := by
  induction l with
  | nil =>
    intro i h
    simp at h
  | cons a t ih =>
    intro i h
    cases i with
    | zero =>
      simp [Nat.mul_comm]
    | succ j =>
      have hj : j < t.length := by simpa using h
      simp only [List.eraseIdx_cons_succ, List.prod_cons, List.getD_cons_succ]
      rw [Nat.mul_assoc, ih j hj]

/-- Erasing a later index leaves earlier entries unchanged. -/
theorem getD_eraseIdx_of_lt (l : List Nat) :
    ∀ i j, j < i → (l.eraseIdx i).getD j 0 = l.getD j 0 := by
  induction l with
  | nil =>
    intro i j _
    simp
  | cons a t ih =>
    intro i j h
    cases i with
    | zero => omega
    | succ i2 =>
      cases j with
      | zero => simp
      | succ j2 =>
        simp only [List.eraseIdx_cons_succ, List.getD_cons_succ]
        exact ih i2 j2 (by omega)

/-- Erasing a strictly descending list of valid indices removes exactly the
entries at those indices: the remaining product times the removed entries
restores the full product. -/
theorem prod_eraseDims_mul (dims : List Nat) :
    ∀ l : List Nat, dims.Pairwise (fun a b => b < a) →
      (∀ d ∈ dims, d < l.length) →
      (eraseDims l dims).prod * (dims.map (fun i => l.getD i 0)).prod = l.prod := by
  induction dims with
  | nil =>
    intro l _ _
    simp [eraseDims]
  | cons d rest ih =>
    intro l hp hv
    have hd : d < l.length := hv d (List.mem_cons_self d rest)
    have hgt : ∀ e ∈ rest, e < d := (List.pairwise_cons.mp hp).1
    have hp2 := (List.pairwise_cons.mp hp).2
    have hlen : (l.eraseIdx d).length = l.length - 1 := by
      rw [List.length_eraseIdx]
      simp [hd]
    have hv2 : ∀ e ∈ rest, e < (l.eraseIdx d).length := by
      intro e he
      have h1 := hgt e he
      omega
    have hmap : rest.map (fun i => (l.eraseIdx d).getD i 0)
        = rest.map (fun i => l.getD i 0) :=
      List.map_congr_left (fun e he => getD_eraseIdx_of_lt l d e (hgt e he))
    have key := ih (l.eraseIdx d) hp2 hv2
    rw [hmap] at key
    have hstep : (eraseDims (l.eraseIdx d) rest).prod
        * ((d :: rest).map (fun i => l.getD i 0)).prod
        = ((eraseDims (l.eraseIdx d) rest).prod
            * (rest.map (fun i => l.getD i 0)).prod) * l.getD d 0 := by
      simp only [List.map_cons, List.prod_cons]
      ring
    have hE : eraseDims l (d :: rest) = eraseDims (l.eraseIdx d) rest := rfl
    rw [hE, hstep, key, prod_eraseIdx_mul l d hd]

/-- `collectCollapse` returns a sublist (in fact an initial segment) of the
dim list it scans. -/
theorem collectCollapse_sublist (length stride : List Nat) :
    ∀ dist dims, (collectCollapse length stride dist dims).Sublist dims := by
  intro dist dims
  induction dims generalizing dist with
  | nil =>
    simp [collectCollapse]
  | cons i rest ih =>
    by_cases hc : dist % stride.getD i 0 = 0
        ∧ dist / stride.getD i 0 = length.getD i 0
    · simp only [collectCollapse, if_pos hc]
      exact (ih (stride.getD i 0)).cons₂ i
    · simp only [collectCollapse, if_neg hc]
      exact List.nil_sublist _

/-- Every dim kept by `collectCollapse` satisfies the running contiguity
equation `dist = stride[i] * length[i]` the claim describes, with the
running distance becoming `stride[i]` for the next kept dim. -/
theorem collectCollapse_chain (length stride : List Nat) :
    ∀ dist dims, contiguityChain length stride dist
      (collectCollapse length stride dist dims) = true := by
  intro dist dims
  induction dims generalizing dist with
  | nil =>
    simp [collectCollapse, contiguityChain]
  | cons i rest ih =>
    by_cases hc : dist % stride.getD i 0 = 0
        ∧ dist / stride.getD i 0 = length.getD i 0
    · have heq : dist = stride.getD i 0 * length.getD i 0 := by
        rcases hc with ⟨h1, h2⟩
        rcases Nat.eq_zero_or_pos (stride.getD i 0) with hs | hs
        · rw [hs] at h1 h2
          simp only [Nat.mod_zero] at h1
          rw [hs, h1]
          simp
        · rw [← h2, Nat.mul_div_cancel' (Nat.dvd_of_mod_eq_zero h1)]
      simp only [collectCollapse, if_pos hc, contiguityChain]
      rw [ih (stride.getD i 0)]
      simp [heq]
    · simp only [collectCollapse, if_neg hc]
      rfl

/-- C10: for well-formed collapsible dims (strictly ascending, in range on
both layouts, as the scheme-specific `CollapsibleDims()` guarantees),
`CollapseContiguousDims` preserves the total element count — batch times the
product of the length entries, and likewise for a set `outputLength` — the
node is modified only when the dims to collapse and the new batch computed
from the input layout agree with those computed from the output layout, and
every collapsed dim satisfies the running `dist = stride[i] * length[i]`
contiguity on both sides. -/
theorem CollapseContiguousDims_spec (collapsibleDims : List Nat)
    (s : NodeLayout)
    (hsorted : collapsibleDims.Pairwise (fun a b => a < b))
    (hin : ∀ d ∈ collapsibleDims, d < s.length.length)
    (hout : ∀ d ∈ collapsibleDims, d < s.GetOutputLength.length) :
    ((CollapseContiguousDims collapsibleDims s).batch
        * (CollapseContiguousDims collapsibleDims s).length.prod
      = s.batch * s.length.prod)
    ∧ (s.outputLength ≠ [] →
        (CollapseContiguousDims collapsibleDims s).batch
          * (CollapseContiguousDims collapsibleDims s).outputLength.prod
        = s.batch * s.outputLength.prod)
    ∧ (CollapseContiguousDims collapsibleDims s ≠ s →
        collectCollapse s.length s.inStride s.iDist collapsibleDims.reverse
          = collectCollapse s.GetOutputLength s.outStride s.oDist
              collapsibleDims.reverse
        ∧ s.batch * ((collectCollapse s.length s.inStride s.iDist
              collapsibleDims.reverse).map (fun i => s.length.getD i 0)).prod
          = s.batch * ((collectCollapse s.GetOutputLength s.outStride s.oDist
              collapsibleDims.reverse).map
                (fun i => s.GetOutputLength.getD i 0)).prod)
    ∧ contiguityChain s.length s.inStride s.iDist
        (collectCollapse s.length s.inStride s.iDist collapsibleDims.reverse)
      = true
    ∧ contiguityChain s.GetOutputLength s.outStride s.oDist
        (collectCollapse s.GetOutputLength s.outStride s.oDist
          collapsibleDims.reverse) = true := by
  have hrevPair : collapsibleDims.reverse.Pairwise (fun a b => b < a) :=
    List.pairwise_reverse.mpr hsorted
  have hIsub := collectCollapse_sublist s.length s.inStride s.iDist
    collapsibleDims.reverse
  have hOsub := collectCollapse_sublist s.GetOutputLength s.outStride s.oDist
    collapsibleDims.reverse
  have hIpair := hrevPair.sublist hIsub
  have hOpair := hrevPair.sublist hOsub
  have hIvalid : ∀ d ∈ collectCollapse s.length s.inStride s.iDist
      collapsibleDims.reverse, d < s.length.length :=
    fun d hd => hin d (List.mem_reverse.mp (hIsub.subset hd))
  have hOvalid : ∀ d ∈ collectCollapse s.GetOutputLength s.outStride s.oDist
      collapsibleDims.reverse, d < s.GetOutputLength.length :=
    fun d hd => hout d (List.mem_reverse.mp (hOsub.subset hd))
  refine ⟨?_, ?_, ?_, collectCollapse_chain _ _ _ _,
    collectCollapse_chain _ _ _ _⟩
  all_goals by_cases h0 : collapsibleDims = []
  case pos =>
    simp [CollapseContiguousDims, h0]
  case pos =>
    simp [CollapseContiguousDims, h0]
  case pos =>
    intro hne
    exact absurd (by simp [CollapseContiguousDims, h0]) hne
  all_goals
    simp only [CollapseContiguousDims, if_neg h0]
    by_cases hcond :
      collectCollapse s.length s.inStride s.iDist collapsibleDims.reverse
        ≠ collectCollapse s.GetOutputLength s.outStride s.oDist
            collapsibleDims.reverse
      ∨ s.batch * ((collectCollapse s.length s.inStride s.iDist
            collapsibleDims.reverse).map (fun i => s.length.getD i 0)).prod
        ≠ s.batch * ((collectCollapse s.GetOutputLength s.outStride s.oDist
            collapsibleDims.reverse).map
              (fun i => s.GetOutputLength.getD i 0)).prod
  case pos =>
    rw [if_pos hcond]
  case pos =>
    rw [if_pos hcond]
    intro _
    rfl
  case pos =>
    rw [if_pos hcond]
    intro hne
    exact absurd rfl hne
  case neg =>
    rw [if_neg hcond]
    have hmain := prod_eraseDims_mul
      (collectCollapse s.length s.inStride s.iDist collapsibleDims.reverse)
      s.length hIpair hIvalid
    simp only []
    calc s.batch * ((collectCollapse s.length s.inStride s.iDist
            collapsibleDims.reverse).map (fun i => s.length.getD i 0)).prod
          * (eraseDims s.length (collectCollapse s.length s.inStride s.iDist
              collapsibleDims.reverse)).prod
        = s.batch * ((eraseDims s.length (collectCollapse s.length s.inStride
              s.iDist collapsibleDims.reverse)).prod
            * ((collectCollapse s.length s.inStride s.iDist
                collapsibleDims.reverse).map (fun i => s.length.getD i 0)).prod) := by
          ring
      _ = s.batch * s.length.prod := by rw [hmain]
  case neg =>
    rw [if_neg hcond]
    push_neg at hcond
    intro hone
    have hT : s.GetOutputLength = s.outputLength := by
      simp [NodeLayout.GetOutputLength, hone]
    have hmain := prod_eraseDims_mul
      (collectCollapse s.GetOutputLength s.outStride s.oDist
        collapsibleDims.reverse)
      s.GetOutputLength hOpair hOvalid
    simp only [hone, if_neg hone]
    rw [hcond.2]
    calc s.batch * ((collectCollapse s.GetOutputLength s.outStride s.oDist
            collapsibleDims.reverse).map
              (fun i => s.GetOutputLength.getD i 0)).prod
          * (eraseDims s.GetOutputLength
              (collectCollapse s.GetOutputLength s.outStride s.oDist
                collapsibleDims.reverse)).prod
        = s.batch * ((eraseDims s.GetOutputLength
              (collectCollapse s.GetOutputLength s.outStride s.oDist
                collapsibleDims.reverse)).prod
            * ((collectCollapse s.GetOutputLength s.outStride s.oDist
                collapsibleDims.reverse).map
                  (fun i => s.GetOutputLength.getD i 0)).prod) := by
          ring
      _ = s.batch * s.GetOutputLength.prod := by rw [hmain]
      _ = s.batch * s.outputLength.prod := by rw [hT]
  case neg =>
    rw [if_neg hcond]
    push_neg at hcond
    intro _
    exact hcond

/-- Witness for C10 at a concrete node: length [4,2], unit-contiguous
strides, distance 8, batch 3, collapsible dim 1. -/
theorem CollapseContiguousDims_spec_witness :
    (([1] : List Nat).Pairwise (fun a b => a < b)
      ∧ (∀ d ∈ ([1] : List Nat),
          d < (⟨[4, 2], [], [1, 4], [1, 4], 8, 8, 3⟩ : NodeLayout).length.length)
      ∧ (∀ d ∈ ([1] : List Nat),
          d < (⟨[4, 2], [], [1, 4], [1, 4], 8, 8, 3⟩ :
            NodeLayout).GetOutputLength.length))
    ∧ ((CollapseContiguousDims [1] ⟨[4, 2], [], [1, 4], [1, 4], 8, 8, 3⟩).batch
        * (CollapseContiguousDims [1]
            ⟨[4, 2], [], [1, 4], [1, 4], 8, 8, 3⟩).length.prod
      = (⟨[4, 2], [], [1, 4], [1, 4], 8, 8, 3⟩ : NodeLayout).batch
        * (⟨[4, 2], [], [1, 4], [1, 4], 8, 8, 3⟩ : NodeLayout).length.prod) :=
  ⟨⟨by decide, by decide, by decide⟩,
   (CollapseContiguousDims_spec [1] ⟨[4, 2], [], [1, 4], [1, 4], 8, 8, 3⟩
      (by decide) (by decide) (by decide)).1⟩

end RocFFT
